import Mathlib

/-!
Verification of the rhusics spatial collision-detection core.

The embedding covers the two ECS systems of the repository:
`SpatialCollisionSystem` (src/rhusics-ecs/src/collide/systems/spatial_collision.rs)
and `CurrentFrameUpdateSystem` (src/rhusics-ecs/src/physics/systems/current_frame.rs),
together with the `tree_collide` pipeline of rhusics-core which the collision
system calls but whose source is not part of this repository snapshot; that
pipeline is modelled from the specification (spec.md §4.2).

Entity storages (`ReadStorage`, `WriteStorage`) are modelled as partial maps
`Entity → Option α`; the flagged-storage change channels of `specs` are modelled
as append-only lists with one private cursor per reader (`shrev` semantics);
bit sets are modelled as `Finset ℕ`.
-/

namespace Rhusics

/-- Body identifier: a stable opaque handle (`specs::Entity`), modelled by its index. -/
abbrev Entity := ℕ

/-- Modelled from the spec: the `NextFrame<T>` component of rhusics-core (not under
src/): the double-buffered next-frame value of a pose or velocity (spec.md §3). -/
structure NextFrame (T : Type) where
  value : T
  deriving DecidableEq

/-- Modelled from the spec: the activity flag of the rhusics-core `PhysicalEntity`
component (not under src/); only `active()` is consulted by this core (spec.md §4.5). -/
structure PhysicalEntity where
  active : Bool
  deriving DecidableEq

/-! ## Current-frame advance (src/rhusics-ecs/src/physics/systems/current_frame.rs) -/

/-- The `SystemData` of `CurrentFrameUpdateSystem` (current_frame.rs lines 52-58):
physical entities, current and next velocities, current and next poses. -/
structure CurrentFrameData (T V : Type) where
  entities : Entity → Option PhysicalEntity
  velocities : Entity → Option V
  next_velocities : Entity → Option (NextFrame V)
  poses : Entity → Option T
  next_poses : Entity → Option (NextFrame T)

/-- `CurrentFrameUpdateSystem::run` (current_frame.rs lines 60-78): for every body
joined over (physical entity, next pose, pose) whose entity is active, overwrite the
current pose with the next-frame value; likewise for velocities. -/
def CurrentFrameUpdateSystem.run (d : CurrentFrameData T V) : CurrentFrameData T V :=
  { d with
    poses := fun e =>
      match d.entities e, d.next_poses e, d.poses e with
      | some pe, some next, some _ => if pe.active then some next.value else d.poses e
      | _, _, _ => d.poses e
    velocities := fun e =>
      match d.entities e, d.next_velocities e, d.velocities e with
      | some pe, some next, some _ => if pe.active then some next.value else d.velocities e
      | _, _, _ => d.velocities e }

/-! ## Change tracking (src/rhusics-ecs/src/collide/systems/spatial_collision.rs) -/

/-- The four change-event channels of the flagged pose storages (`specs`
`FlaggedStorage`): inserted and modified events for the current-pose storage and
for the next-frame-pose storage.  Each channel is an append-only list of body
identifiers; readers hold private cursors into it. -/
structure PoseEvents where
  pose_inserted : List Entity
  pose_modified : List Entity
  next_pose_inserted : List Entity
  next_pose_modified : List Entity

/-- The persistent state of `SpatialCollisionSystem` (spatial_collision.rs lines
44-50): the dirty bit set and the four private reader cursors.  The bit set is
modelled as a duplicate-free list of identifiers. -/
structure SpatialCollisionSystemState where
  dirty : List Entity
  pose_inserted_id : ℕ
  pose_modified_id : ℕ
  next_pose_inserted_id : ℕ
  next_pose_modified_id : ℕ

/-- `populate_inserted` / `populate_modified` of a tracked storage: read every
event past the reader's cursor, add its body identifier to the bit set (set
semantics: adding an existing member is a no-op), and advance the cursor past
everything read. -/
def populate (channel : List Entity) (cursor : ℕ) (dirty : List Entity) :
    List Entity × ℕ :=
  ((channel.drop cursor).foldl (fun d e => d.insert e) dirty, channel.length)

/-- The dirty-tracking prefix of `SpatialCollisionSystem::run` (spatial_collision.rs
lines 129-140): clear the bit set, then populate it from the four change channels,
advancing each private cursor. -/
def updateDirty (ev : PoseEvents) (s : SpatialCollisionSystemState) :
    SpatialCollisionSystemState :=
  let p1 := populate ev.pose_inserted s.pose_inserted_id []
  let p2 := populate ev.pose_modified s.pose_modified_id p1.1
  let p3 := populate ev.next_pose_inserted s.next_pose_inserted_id p2.1
  let p4 := populate ev.next_pose_modified s.next_pose_modified_id p3.1
  ⟨p4.1, p1.2, p2.2, p3.2, p4.2⟩

/-- `SpatialCollisionSystem::setup` (spatial_collision.rs lines 156-165): register
one reader per channel; a fresh reader's cursor sits at the current end of its
channel, and the dirty set starts empty. -/
def SpatialCollisionSystem.setup (ev : PoseEvents) : SpatialCollisionSystemState :=
  ⟨[], ev.pose_inserted.length, ev.pose_modified.length,
    ev.next_pose_inserted.length, ev.next_pose_modified.length⟩

/-! ## Collision data (src/rhusics-ecs/src/collide/systems/spatial_collision.rs) -/

/-- Modelled from the spec: the rhusics-core `CollisionShape` (not under src/), an
immutable geometric primitive from which, together with a pose, a bound is
computable (spec.md §3). -/
structure CollisionShape (P : Type) where
  primitive : P
  deriving DecidableEq

/-- `SpatialCollisionData` (spatial_collision.rs lines 169-189): the per-body
lookups handed to the pipeline — collision shapes, current poses, next-frame
poses, entity liveness, and the dirty set. -/
structure SpatialCollisionData (P T : Type) where
  shapes : Entity → Option (CollisionShape P)
  poses : Entity → Option T
  next_poses : Entity → Option (NextFrame T)
  alive : Entity → Bool
  dirty : List Entity

/-- `SpatialCollisionData::get_broad_data` (spatial_collision.rs lines 202-204):
`Vec::default()`, the empty auxiliary broad-phase data. -/
def SpatialCollisionData.get_broad_data (_d : SpatialCollisionData P T) (D : Type) :
    List D := []

/-- `SpatialCollisionData::get_shape` (spatial_collision.rs lines 206-208):
`self.shapes.get(id).unwrap()`; `none` models the panic of `unwrap` on a missing
entry, which aborts the evaluation. -/
def SpatialCollisionData.get_shape (d : SpatialCollisionData P T) (id : Entity) :
    Option (CollisionShape P) := d.shapes id

/-- `SpatialCollisionData::get_pose` (spatial_collision.rs lines 210-212):
`self.poses.get(id).unwrap()`; `none` models the panic of `unwrap` on a missing
entry, which aborts the evaluation. -/
def SpatialCollisionData.get_pose (d : SpatialCollisionData P T) (id : Entity) :
    Option T := d.poses id

/-- `SpatialCollisionData::get_dirty_poses` (spatial_collision.rs lines 214-219):
the join of the live entities, the dirty bit set and the shape storage — every
dirty id that is alive and carries a collision shape. -/
def SpatialCollisionData.get_dirty_poses (d : SpatialCollisionData P T) :
    List Entity :=
  d.dirty.filter (fun e => d.alive e && (d.shapes e).isSome)

/-- `SpatialCollisionData::get_next_pose` (spatial_collision.rs lines 221-223):
the next-frame pose's value, when the component is present. -/
def SpatialCollisionData.get_next_pose (d : SpatialCollisionData P T) (id : Entity) :
    Option T := (d.next_poses id).map NextFrame.value

/-! ## Collision pipeline, modelled from the spec (spec.md §4.2)

`tree_collide` lives in rhusics-core, which is not part of this repository
snapshot; only its call site (spatial_collision.rs lines 142-153) is.  The
definitions below follow spec.md §4.2 (bound refresh, candidate generation with
the index-enumeration fallback, gated narrow refinement). -/

/-- Modelled from the spec: the effective pose of a body — its pending (next-frame)
pose when one exists, else its current pose (spec.md §4.2 steps 1 and 3); `none`
models an aborting current-pose lookup for a body with neither. -/
def effectivePose (d : SpatialCollisionData P T) (id : Entity) : Option T :=
  match d.get_next_pose id with
  | some p => some p
  | none => d.get_pose id

/-- The spatial index, modelled as an association list of (body identifier, bound)
leaves, one entry per body. -/
abbrev SpatialIndex (B : Type) := List (Entity × B)

/-- Look a body's leaf bound up in the spatial index. -/
def lookupIndex : SpatialIndex B → Entity → Option B
  | [], _ => none
  | (e0, b) :: rest, e => if e0 = e then some b else lookupIndex rest e

/-- Modelled from the spec: upsert into the spatial index — update the body's leaf
in place if one exists, insert a new leaf otherwise (spec.md §4.2 step 1, §3). -/
def upsert : SpatialIndex B → Entity → B → SpatialIndex B
  | [], id, b => [(id, b)]
  | (e0, b0) :: rest, id, b =>
    if e0 = id then (id, b) :: rest else (e0, b0) :: upsert rest id b

/-- Modelled from the spec: the index's native overlap enumeration — every pair of
leaves whose bounds overlap, deduplicated, each body paired with itself excluded
(spec.md §4.2 step 2). -/
def overlapPairs (ov : B → B → Bool) : SpatialIndex B → List (Entity × Entity)
  | [] => []
  | (e, b) :: rest =>
    ((rest.filter fun p => ov b p.2 && !(p.1 == e)).map fun p => (e, p.1))
      ++ overlapPairs ov rest

/-- Modelled from the spec: step 1 of the pipeline, bound refresh over an explicit
work list — for each id, fetch its shape (aborting if absent) and its pending-else-
current pose (aborting if neither is present), and upsert the bound computed from
them (spec.md §4.2 step 1). -/
def refreshLoop (cb : CollisionShape P → T → B) (d : SpatialCollisionData P T) :
    List Entity → SpatialIndex B → Option (SpatialIndex B)
  | [], idx => some idx
  | e :: rest, idx =>
    match d.get_shape e, effectivePose d e with
    | some s, some p => refreshLoop cb d rest (upsert idx e (cb s p))
    | _, _ => none

/-- Modelled from the spec: bound refresh over the dirty ids that carry a shape
(spec.md §4.2 step 1). -/
def boundRefresh (cb : CollisionShape P → T → B) (d : SpatialCollisionData P T)
    (idx : SpatialIndex B) : Option (SpatialIndex B) :=
  refreshLoop cb d d.get_dirty_poses idx

/-- Modelled from the spec: a contact event's payload — either a coarse,
bound-level contact (no narrow refinement) or a precise contact computed by the
narrow phase (spec.md §3, §4.2). -/
inductive ContactKind (C : Type) where
  | coarse
  | precise (c : C)
  deriving DecidableEq

/-- Modelled from the spec: a contact event — a pair of body identifiers plus
contact data (spec.md §3). -/
structure ContactEvent (C : Type) where
  pair : Entity × Entity
  kind : ContactKind C
  deriving DecidableEq

/-- A broad-phase algorithm, modelled as a function from its auxiliary data (here
the updated spatial index) to candidate pairs (spec.md §4.3). -/
abbrev BroadPhase (B : Type) := SpatialIndex B → List (Entity × Entity)

/-- A narrow-phase algorithm: consumes two (shape, pose) tuples and returns zero
or more contacts (spec.md §4.4). -/
abbrev NarrowPhase (P T C : Type) :=
  CollisionShape P → T → CollisionShape P → T → List C

/-- Modelled from the spec: step 2 of the pipeline, candidate generation — invoke
the broad phase on the updated index when one is supplied, else fall back to the
index's native overlap enumeration (spec.md §4.2 step 2). -/
def candidatePairs (ov : B → B → Bool) (broad : Option (BroadPhase B))
    (idx : SpatialIndex B) : List (Entity × Entity) :=
  match broad with
  | some bp => bp idx
  | none => overlapPairs ov idx

/-- Modelled from the spec: step 3 of the pipeline, narrow refinement — for each
candidate pair fetch both bodies' shape (aborting if absent) and pending-else-
current pose (aborting if neither is present), invoke the narrow phase, and
flatten all resulting contacts in order (spec.md §4.2 step 3). -/
def narrowRefine (d : SpatialCollisionData P T) (np : NarrowPhase P T C) :
    List (Entity × Entity) → Option (List (ContactEvent C))
  | [] => some []
  | (l, r) :: rest =>
    match d.get_shape l, effectivePose d l, d.get_shape r, effectivePose d r with
    | some ls, some lp, some rs, some rp =>
      match narrowRefine d np rest with
      | some contacts =>
        some (((np ls lp rs rp).map fun c => ⟨(l, r), ContactKind.precise c⟩) ++ contacts)
      | none => none
    | _, _, _, _ => none

/-- Modelled from the spec: steps 2 and 3 of the pipeline after a successful
bound refresh — generate candidate pairs and apply the gating policy: narrow
refinement runs only if both a broad and a narrow phase are configured;
otherwise the candidate pairs themselves become the contact stream as coarse,
bound-level contacts (spec.md §4.2 steps 2 and 3). -/
def phaseFinish (d : SpatialCollisionData P T) (ov : B → B → Bool)
    (idx2 : SpatialIndex B) :
    Option (BroadPhase B) → Option (NarrowPhase P T C) →
      Option (SpatialIndex B × List (ContactEvent C))
  | some bp, some np =>
    match narrowRefine d np (bp idx2) with
    | some contacts => some (idx2, contacts)
    | none => none
  | broad, _ =>
    some (idx2, (candidatePairs ov broad idx2).map fun pr => ⟨pr, ContactKind.coarse⟩)

/-- Modelled from the spec: the rhusics-core `tree_collide` pipeline (not under
src/) — refresh the bounds of the dirty shaped bodies in the index, then generate
candidates and refine them under the gating policy (spec.md §4.2). -/
def tree_collide (cb : CollisionShape P → T → B) (ov : B → B → Bool)
    (d : SpatialCollisionData P T) (idx : SpatialIndex B)
    (broad : Option (BroadPhase B)) (narrow : Option (NarrowPhase P T C)) :
    Option (SpatialIndex B × List (ContactEvent C)) :=
  match boundRefresh cb d idx with
  | none => none
  | some idx2 => phaseFinish d ov idx2 broad narrow

/-! ## The full collision system run (spatial_collision.rs lines 127-154) -/

/-- The world state seen by `SpatialCollisionSystem::run` (spatial_collision.rs
lines 118-125): read-only current poses, next-frame poses, collision shapes and
entity liveness, plus the change channels, and the two writable resources — the
spatial index (DBVT) and the contact-event channel. -/
structure SCSWorld (P T C B : Type) where
  alive : Entity → Bool
  poses : Entity → Option T
  next_poses : Entity → Option (NextFrame T)
  shapes : Entity → Option (CollisionShape P)
  events : PoseEvents
  tree : SpatialIndex B
  event_channel : List (ContactEvent C)

/-- The `SpatialCollisionData` borrow constructed inside
`SpatialCollisionSystem::run` (spatial_collision.rs lines 143-149). -/
def SpatialCollisionSystem.data (w : SCSWorld P T C B) (dirty : List Entity) :
    SpatialCollisionData P T :=
  ⟨w.shapes, w.poses, w.next_poses, w.alive, dirty⟩

/-- `SpatialCollisionSystem::run` (spatial_collision.rs lines 127-154): rebuild
the dirty set from the four change channels, run `tree_collide`, write the
resulting contacts to the event channel and keep the updated index; `none` models
a panicking lookup aborting the evaluation. -/
def SpatialCollisionSystem.run (cb : CollisionShape P → T → B) (ov : B → B → Bool)
    (broad : Option (BroadPhase B)) (narrow : Option (NarrowPhase P T C))
    (w : SCSWorld P T C B) (s : SpatialCollisionSystemState) :
    Option (SCSWorld P T C B × SpatialCollisionSystemState) :=
  let s2 := updateDirty w.events s
  match tree_collide cb ov (SpatialCollisionSystem.data w s2.dirty) w.tree broad narrow with
  | none => none
  | some (tree2, contacts) =>
    some ({ w with tree := tree2, event_channel := w.event_channel ++ contacts }, s2)

/-! ## Concrete instances used by witnesses and counterexamples -/

/-- A trivial bound computation over unit geometry. -/
def cbU : CollisionShape Unit → Unit → Unit := fun _ _ => ()

/-- A bound-overlap test that always reports an overlap. -/
def ovU : Unit → Unit → Bool := fun _ _ => true

/-- A fresh system state: empty dirty set, all cursors at zero. -/
def sInit : SpatialCollisionSystemState := ⟨[], 0, 0, 0, 0⟩

/-- A world with two shaped, posed, live bodies 0 and 1 in the index, no pending
poses, no pending change events, and an empty contact channel. -/
def wW : SCSWorld Unit Unit Unit Unit :=
  ⟨fun _ => true, fun _ => some (), fun _ => none, fun _ => some ⟨()⟩,
    ⟨[], [], [], []⟩, [(0, ()), (1, ())], []⟩

/-- A broad phase that always proposes the single candidate pair (1, 2). -/
def bpW : BroadPhase Unit := fun _ => [(1, 2)]

/-- The world `wW` after a broad-phase-only evaluation with `bpW`. -/
def wRes : SCSWorld Unit Unit Unit Unit :=
  { wW with event_channel := [⟨(1, 2), ContactKind.coarse⟩] }

/-- The world `wW` after an evaluation with neither phase configured: the two
overlapping index leaves are emitted as one coarse contact. -/
def wOv : SCSWorld Unit Unit Unit Unit :=
  { wW with event_channel := [⟨(0, 1), ContactKind.coarse⟩] }

/-- Change channels in which body 3 was inserted twice in the current-pose
channel and also modified in the next-pose channel. -/
def evW : PoseEvents := ⟨[3, 3], [], [], [3]⟩

/-- A current-frame store with an active body 0, an inactive body 1, and a body 2
that has current and pending values but no physical-entity component. -/
def dCF : CurrentFrameData ℤ ℤ where
  entities := fun i => if i = 0 then some ⟨true⟩ else if i = 1 then some ⟨false⟩ else none
  velocities := fun i => if i ≤ 2 then some 10 else none
  next_velocities := fun i => if i ≤ 2 then some ⟨20⟩ else none
  poses := fun i => if i ≤ 2 then some 1 else none
  next_poses := fun i => if i ≤ 2 then some ⟨2⟩ else none

/-- Collision data whose dirty body 0 carries a shape but has neither a current
nor a pending pose: its pose lookup aborts. -/
def dFail : SpatialCollisionData Unit Unit :=
  ⟨fun _ => some ⟨()⟩, fun _ => none, fun _ => none, fun _ => true, [0]⟩

/-- Collision data whose dirty body 0 carries a shape and a current pose. -/
def dOkay : SpatialCollisionData Unit Unit :=
  ⟨fun _ => some ⟨()⟩, fun _ => some (), fun _ => none, fun _ => true, [0]⟩

/-! ## Helper lemmas -/

theorem mem_foldl_insert (L : List Entity) :
    ∀ (d : List Entity) (e : Entity),
      e ∈ L.foldl (fun d e => d.insert e) d ↔ e ∈ d ∨ e ∈ L := by
  induction L with
  | nil => intro d e; simp
  | cons a L ih =>
    intro d e
    rw [List.foldl_cons, ih, List.mem_insert_iff, List.mem_cons]
    tauto

theorem nodup_foldl_insert (L : List Entity) :
    ∀ d : List Entity, d.Nodup → (L.foldl (fun d e => d.insert e) d).Nodup := by
  induction L with
  | nil => intro d hd; simpa using hd
  | cons a L ih => intro d hd; exact ih (d.insert a) hd.insert

theorem mem_updateDirty (ev : PoseEvents) (s : SpatialCollisionSystemState)
    (e : Entity) :
    e ∈ (updateDirty ev s).dirty ↔
      e ∈ ev.pose_inserted.drop s.pose_inserted_id ∨
      e ∈ ev.pose_modified.drop s.pose_modified_id ∨
      e ∈ ev.next_pose_inserted.drop s.next_pose_inserted_id ∨
      e ∈ ev.next_pose_modified.drop s.next_pose_modified_id := by
  simp only [updateDirty, populate, mem_foldl_insert, List.not_mem_nil]
  tauto

theorem nodup_updateDirty (ev : PoseEvents) (s : SpatialCollisionSystemState) :
    (updateDirty ev s).dirty.Nodup := by
  simp only [updateDirty, populate]
  exact nodup_foldl_insert _ _ (nodup_foldl_insert _ _ (nodup_foldl_insert _ _
    (nodup_foldl_insert _ _ List.nodup_nil)))

theorem updateDirty_cursors (ev : PoseEvents) (s : SpatialCollisionSystemState) :
    (updateDirty ev s).pose_inserted_id = ev.pose_inserted.length ∧
    (updateDirty ev s).pose_modified_id = ev.pose_modified.length ∧
    (updateDirty ev s).next_pose_inserted_id = ev.next_pose_inserted.length ∧
    (updateDirty ev s).next_pose_modified_id = ev.next_pose_modified.length :=
  ⟨rfl, rfl, rfl, rfl⟩

/-! ## Claims about the change tracker -/

/-- C2: every run of `SpatialCollisionSystem` clears the dirty set and rebuilds it
as the union of the four change streams (current-pose inserted/modified and
pending-pose inserted/modified, each read from its private cursor), and an
identifier present in several streams contributes exactly one element. -/
theorem dirty_set_rebuild (ev : PoseEvents) (s : SpatialCollisionSystemState) :
    (∀ e : Entity, e ∈ (updateDirty ev s).dirty ↔
        (e ∈ ev.pose_inserted.drop s.pose_inserted_id ∨
         e ∈ ev.pose_modified.drop s.pose_modified_id ∨
         e ∈ ev.next_pose_inserted.drop s.next_pose_inserted_id ∨
         e ∈ ev.next_pose_modified.drop s.next_pose_modified_id))
    ∧ (∀ e : Entity, e ∈ (updateDirty ev s).dirty →
        (updateDirty ev s).dirty.count e = 1) :=
  ⟨fun e => mem_updateDirty ev s e,
   fun _ he => List.count_eq_one_of_mem (nodup_updateDirty ev s) he⟩

/-- Witness for C2: body 3, present in three of the four stream reads of `evW`,
lands in the rebuilt dirty set exactly once. -/
theorem dirty_set_rebuild_witness :
    3 ∈ (updateDirty evW sInit).dirty ∧ (updateDirty evW sInit).dirty.count 3 = 1 := by
  have h := dirty_set_rebuild evW sInit
  have hm : 3 ∈ (updateDirty evW sInit).dirty := (h.1 3).mpr (Or.inl (by decide))
  exact ⟨hm, h.2 3 hm⟩

/-- C5: change events are consumed exactly once — after one evaluation has drained
the four streams, a second evaluation sees exactly the events appended in
between; with no intervening events the second dirty set is empty. -/
theorem change_events_consumed_once (ev : PoseEvents)
    (s : SpatialCollisionSystemState) (n1 n2 n3 n4 : List Entity) :
    (∀ e : Entity,
        e ∈ (updateDirty
              ⟨ev.pose_inserted ++ n1, ev.pose_modified ++ n2,
               ev.next_pose_inserted ++ n3, ev.next_pose_modified ++ n4⟩
              (updateDirty ev s)).dirty ↔
          (e ∈ n1 ∨ e ∈ n2 ∨ e ∈ n3 ∨ e ∈ n4))
    ∧ (updateDirty ev (updateDirty ev s)).dirty = [] := by
  constructor
  · intro e
    rw [mem_updateDirty]
    simp only [updateDirty_cursors, List.drop_left]
  · show (updateDirty ev (updateDirty ev s)).dirty = []
    simp only [updateDirty, populate, List.drop_length, List.foldl_nil]

/-! ## Claims about the current-frame advance -/

/-- C4: after one run of the current-frame advance, every active body with a
pending pose has its current pose overwritten with the pending value, every
active body with a pending velocity has its current velocity overwritten with the
pending value, and every inactive body as well as every body without a pending
value keeps its current pose and velocity unchanged. -/
theorem current_frame_advance_spec (d : CurrentFrameData T V) (e : Entity)
    (pe : PhysicalEntity) (he : d.entities e = some pe) :
    ((pe.active = true → ∀ (np : NextFrame T) (p : T),
        d.next_poses e = some np → d.poses e = some p →
        (CurrentFrameUpdateSystem.run d).poses e = some np.value)
    ∧ (pe.active = true → ∀ (nv : NextFrame V) (v : V),
        d.next_velocities e = some nv → d.velocities e = some v →
        (CurrentFrameUpdateSystem.run d).velocities e = some nv.value)
    ∧ (pe.active = false →
        (CurrentFrameUpdateSystem.run d).poses e = d.poses e ∧
        (CurrentFrameUpdateSystem.run d).velocities e = d.velocities e)
    ∧ (d.next_poses e = none → (CurrentFrameUpdateSystem.run d).poses e = d.poses e)
    ∧ (d.next_velocities e = none →
        (CurrentFrameUpdateSystem.run d).velocities e = d.velocities e)) := by
  refine ⟨?_, ?_, ?_, ?_, ?_⟩
  · intro hact np p hnp hp
    simp [CurrentFrameUpdateSystem.run, he, hnp, hp, hact]
  · intro hact nv v hnv hv
    simp [CurrentFrameUpdateSystem.run, he, hnv, hv, hact]
  · intro hact
    constructor
    · cases hnp : d.next_poses e <;> cases hp : d.poses e <;>
        simp [CurrentFrameUpdateSystem.run, he, hnp, hp, hact]
    · cases hnv : d.next_velocities e <;> cases hv : d.velocities e <;>
        simp [CurrentFrameUpdateSystem.run, he, hnv, hv, hact]
  · intro hnp
    cases hp : d.poses e <;> simp [CurrentFrameUpdateSystem.run, he, hnp, hp]
  · intro hnv
    cases hv : d.velocities e <;> simp [CurrentFrameUpdateSystem.run, he, hnv, hv]

/-- Witness for C4: in the concrete store `dCF`, the active body 0 gets its pose
and velocity advanced to the pending values while the inactive body 1 keeps its
pose. -/
theorem current_frame_advance_spec_witness :
    (CurrentFrameUpdateSystem.run dCF).poses 0 = some 2
      ∧ (CurrentFrameUpdateSystem.run dCF).velocities 0 = some 20
      ∧ (CurrentFrameUpdateSystem.run dCF).poses 1 = dCF.poses 1 := by
  have h0 := current_frame_advance_spec dCF 0 ⟨true⟩ rfl
  have h1 := current_frame_advance_spec dCF 1 ⟨false⟩ rfl
  exact ⟨h0.1 rfl ⟨2⟩ 1 rfl rfl, h0.2.1 rfl ⟨20⟩ 10 rfl rfl, (h1.2.2.1 rfl).1⟩

/-- C10: the current-frame advance touches a body only if it has a physical-entity
component — a body with pending values but no such component keeps its current
pose and velocity unchanged. -/
theorem advance_requires_physical_entity (d : CurrentFrameData T V) (e : Entity)
    (he : d.entities e = none) :
    (CurrentFrameUpdateSystem.run d).poses e = d.poses e ∧
    (CurrentFrameUpdateSystem.run d).velocities e = d.velocities e := by
  constructor
  · cases hnp : d.next_poses e <;> cases hp : d.poses e <;>
      simp [CurrentFrameUpdateSystem.run, he, hnp, hp]
  · cases hnv : d.next_velocities e <;> cases hv : d.velocities e <;>
      simp [CurrentFrameUpdateSystem.run, he, hnv, hv]

/-- Witness for C10: body 2 of `dCF` has pending pose and velocity but no
physical-entity component, and keeps its current values. -/
theorem advance_requires_physical_entity_witness :
    dCF.next_poses 2 = some ⟨2⟩
      ∧ (CurrentFrameUpdateSystem.run dCF).poses 2 = dCF.poses 2
      ∧ (CurrentFrameUpdateSystem.run dCF).velocities 2 = dCF.velocities 2 := by
  have h := advance_requires_physical_entity dCF 2 rfl
  exact ⟨rfl, h.1, h.2⟩

/-! ## Helper lemmas about the spatial index and the bound refresh -/

theorem lookup_upsert (idx : SpatialIndex B) (id e : Entity) (b : B) :
    lookupIndex (upsert idx id b) e = if id = e then some b else lookupIndex idx e := by
  induction idx with
  | nil => by_cases h : id = e <;> simp [upsert, lookupIndex, h]
  | cons hd rest ih =>
    obtain ⟨e0, b0⟩ := hd
    by_cases h0 : e0 = id
    · subst h0
      by_cases h : e0 = e <;> simp [upsert, lookupIndex, h]
    · by_cases h : e0 = e
      · subst h
        have hne : ¬id = e0 := fun hh => h0 hh.symm
        simp [upsert, h0, lookupIndex, hne]
      · simp [upsert, h0, lookupIndex, h, ih]

theorem refreshLoop_lookup (cb : CollisionShape P → T → B)
    (d : SpatialCollisionData P T) :
    ∀ (L : List Entity) (idx : SpatialIndex B),
      (∀ e ∈ L, (d.get_shape e).isSome = true ∧ (effectivePose d e).isSome = true) →
      ∃ idx2, refreshLoop cb d L idx = some idx2 ∧
        ∀ e : Entity, lookupIndex idx2 e =
          if e ∈ L then (d.get_shape e).bind (fun s => (effectivePose d e).map (cb s))
          else lookupIndex idx e := by
  intro L
  induction L with
  | nil =>
    intro idx _
    exact ⟨idx, rfl, fun e => by simp⟩
  | cons e0 rest ih =>
    intro idx h
    obtain ⟨hs, hp⟩ := h e0 (List.mem_cons_self e0 rest)
    obtain ⟨s0, hs0⟩ := Option.isSome_iff_exists.mp hs
    obtain ⟨p0, hp0⟩ := Option.isSome_iff_exists.mp hp
    obtain ⟨idx2, hrun, hlook⟩ :=
      ih (upsert idx e0 (cb s0 p0)) (fun e he => h e (List.mem_cons_of_mem e0 he))
    refine ⟨idx2, ?_, ?_⟩
    · simp [refreshLoop, hs0, hp0, hrun]
    · intro e
      rw [hlook e]
      by_cases hmem : e ∈ rest
      · simp [hmem, List.mem_cons]
      · by_cases he0 : e = e0
        · subst he0
          simp [hmem, lookup_upsert, hs0, hp0]
        · have hnotc : e ∉ e0 :: rest := by
            simp [List.mem_cons, he0, hmem]
          have hne : ¬e0 = e := fun hh => he0 hh.symm
          simp [hmem, hnotc, lookup_upsert, hne]

theorem refreshLoop_abort (cb : CollisionShape P → T → B)
    (d : SpatialCollisionData P T) :
    ∀ (L : List Entity) (idx : SpatialIndex B) (e : Entity), e ∈ L →
      effectivePose d e = none → refreshLoop cb d L idx = none := by
  intro L
  induction L with
  | nil => intro idx e h; cases h
  | cons e0 rest ih =>
    intro idx e hmem hnone
    rcases List.mem_cons.mp hmem with he0 | hrest
    · subst he0
      cases hs : d.get_shape e <;> simp [refreshLoop, hs, hnone]
    · cases hs : d.get_shape e0 with
      | none => simp [refreshLoop, hs]
      | some s =>
        cases hp : effectivePose d e0 with
        | none => simp [refreshLoop, hs, hp]
        | some p =>
          simp only [refreshLoop, hs, hp]
          exact ih (upsert idx e0 (cb s p)) e hrest hnone

theorem mem_dirty_poses (d : SpatialCollisionData P T) (e : Entity) :
    e ∈ d.get_dirty_poses ↔
      e ∈ d.dirty ∧ d.alive e = true ∧ (d.shapes e).isSome = true := by
  simp [SpatialCollisionData.get_dirty_poses, List.mem_filter, and_assoc]

/-! ## Claims about the bound refresh and the data adapter -/

/-- C3: the bound-refresh step processes exactly the ids that are in the dirty set
and carry a collision shape (all of them assumed live, as entities whose
components still exist are), and each such id's leaf bound is computed from its
pending pose when one exists, else from its current pose; every other leaf is
untouched. -/
theorem bound_refresh_exact (cb : CollisionShape P → T → B)
    (d : SpatialCollisionData P T) (idx : SpatialIndex B)
    (hAlive : ∀ e : Entity, (d.shapes e).isSome = true → d.alive e = true)
    (hPose : ∀ e : Entity, e ∈ d.dirty → (d.shapes e).isSome = true →
      (effectivePose d e).isSome = true) :
    ∃ idx2, boundRefresh cb d idx = some idx2
      ∧ (∀ e : Entity,
          e ∈ d.get_dirty_poses ↔ e ∈ d.dirty ∧ (d.shapes e).isSome = true)
      ∧ (∀ (e : Entity) (s : CollisionShape P), d.shapes e = some s → e ∈ d.dirty →
          ((∀ p : T, d.get_next_pose e = some p → lookupIndex idx2 e = some (cb s p))
           ∧ (d.get_next_pose e = none → ∀ p : T, d.get_pose e = some p →
               lookupIndex idx2 e = some (cb s p))))
      ∧ (∀ e : Entity, (e ∉ d.dirty ∨ d.shapes e = none) →
          lookupIndex idx2 e = lookupIndex idx e) := by
  have hmem : ∀ e : Entity,
      e ∈ d.get_dirty_poses ↔ e ∈ d.dirty ∧ (d.shapes e).isSome = true := by
    intro e
    rw [mem_dirty_poses]
    exact ⟨fun h => ⟨h.1, h.2.2⟩, fun h => ⟨h.1, hAlive e h.2, h.2⟩⟩
  obtain ⟨idx2, hrun, hlook⟩ :=
    refreshLoop_lookup cb d d.get_dirty_poses idx (by
      intro e he
      obtain ⟨hd, hs⟩ := (hmem e).mp he
      exact ⟨hs, hPose e hd hs⟩)
  refine ⟨idx2, hrun, hmem, ?_, ?_⟩
  · intro e s hs hd
    have he : e ∈ d.get_dirty_poses := (hmem e).mpr ⟨hd, by simp [hs]⟩
    constructor
    · intro p hnp
      have : effectivePose d e = some p := by simp [effectivePose, hnp]
      simp [hlook e, he, SpatialCollisionData.get_shape, hs, this]
    · intro hnp p hp
      have : effectivePose d e = some p := by
        simp [effectivePose, hnp, hp]
      simp [hlook e, he, SpatialCollisionData.get_shape, hs, this]
  · intro e hne
    have : e ∉ d.get_dirty_poses := by
      rw [hmem e]
      rcases hne with h | h
      · exact fun hc => h hc.1
      · exact fun hc => by simp [h] at hc
    simp [hlook e, this]

/-- Witness for C3: on the concrete data `dOkay` (dirty shaped body 0 with a
current pose only), the bound refresh succeeds and body 0 is processed. -/
theorem bound_refresh_exact_witness :
    (boundRefresh cbU dOkay []).isSome = true ∧ 0 ∈ dOkay.get_dirty_poses := by
  obtain ⟨idx2, hrun, hmem, _, _⟩ :=
    bound_refresh_exact cbU dOkay [] (fun _ _ => rfl) (fun _ _ _ => rfl)
  exact ⟨by rw [hrun]; rfl, (hmem 0).mpr ⟨by decide, rfl⟩⟩

/-- C9: the ECS adapter's auxiliary broad-phase data is always the empty sequence,
for every state of the world and every auxiliary data type. -/
theorem broad_data_always_empty (P T D : Type) (d : SpatialCollisionData P T) :
    d.get_broad_data D = ([] : List D) := rfl

/-! ## Helper lemmas about the pipeline -/

theorem narrowRefine_total (d : SpatialCollisionData P T) (np : NarrowPhase P T C) :
    ∀ pairs : List (Entity × Entity),
      (∀ l r : Entity, (l, r) ∈ pairs →
        (d.get_shape l).isSome = true ∧ (effectivePose d l).isSome = true ∧
        (d.get_shape r).isSome = true ∧ (effectivePose d r).isSome = true) →
      (narrowRefine d np pairs).isSome = true := by
  intro pairs
  induction pairs with
  | nil => intro _; rfl
  | cons pr rest ih =>
    obtain ⟨l, r⟩ := pr
    intro h
    obtain ⟨h1, h2, h3, h4⟩ := h l r (List.mem_cons_self (l, r) rest)
    obtain ⟨ls, hls⟩ := Option.isSome_iff_exists.mp h1
    obtain ⟨lp, hlp⟩ := Option.isSome_iff_exists.mp h2
    obtain ⟨rs, hrs⟩ := Option.isSome_iff_exists.mp h3
    obtain ⟨rp, hrp⟩ := Option.isSome_iff_exists.mp h4
    have hrest := ih (fun l r hm => h l r (List.mem_cons_of_mem _ hm))
    obtain ⟨cs, hcs⟩ := Option.isSome_iff_exists.mp hrest
    simp [narrowRefine, hls, hlp, hrs, hrp, hcs]

theorem tree_collide_inv (cb : CollisionShape P → T → B) (ov : B → B → Bool)
    (d : SpatialCollisionData P T) (idx : SpatialIndex B)
    (broad : Option (BroadPhase B)) (narrow : Option (NarrowPhase P T C))
    (t2 : SpatialIndex B) (cts : List (ContactEvent C))
    (h : tree_collide cb ov d idx broad narrow = some (t2, cts)) :
    boundRefresh cb d idx = some t2 := by
  cases hbr : boundRefresh cb d idx with
  | none => simp [tree_collide, hbr] at h
  | some idx2 =>
    simp only [tree_collide, hbr] at h
    cases broad with
    | none =>
      cases narrow <;>
        simp only [phaseFinish, Option.some.injEq, Prod.mk.injEq] at h <;>
        exact congrArg some h.1
    | some bp =>
      cases narrow with
      | none =>
        simp only [phaseFinish, Option.some.injEq, Prod.mk.injEq] at h
        exact congrArg some h.1
      | some np =>
        simp only [phaseFinish] at h
        cases hnr : narrowRefine d np (bp idx2) with
        | none => rw [hnr] at h; simp at h
        | some contacts =>
          rw [hnr] at h
          simp only [Option.some.injEq, Prod.mk.injEq] at h
          exact congrArg some h.1

theorem tree_collide_no_narrow_inv (cb : CollisionShape P → T → B)
    (ov : B → B → Bool) (d : SpatialCollisionData P T) (idx : SpatialIndex B)
    (broad : Option (BroadPhase B)) (t2 : SpatialIndex B)
    (cts : List (ContactEvent C))
    (h : tree_collide cb ov d idx broad (none : Option (NarrowPhase P T C))
           = some (t2, cts)) :
    boundRefresh cb d idx = some t2 ∧
      cts = (candidatePairs ov broad t2).map (fun pr => ⟨pr, ContactKind.coarse⟩) := by
  cases hbr : boundRefresh cb d idx with
  | none => simp [tree_collide, hbr] at h
  | some idx2 =>
    simp only [tree_collide, hbr] at h
    cases broad <;>
      simp only [phaseFinish, Option.some.injEq, Prod.mk.injEq] at h <;>
      obtain ⟨h1, h2⟩ := h <;> subst h1 <;> exact ⟨rfl, h2.symm⟩

theorem tree_collide_no_broad_inv (cb : CollisionShape P → T → B)
    (ov : B → B → Bool) (d : SpatialCollisionData P T) (idx : SpatialIndex B)
    (narrow : Option (NarrowPhase P T C)) (t2 : SpatialIndex B)
    (cts : List (ContactEvent C))
    (h : tree_collide cb ov d idx (none : Option (BroadPhase B)) narrow
           = some (t2, cts)) :
    boundRefresh cb d idx = some t2 ∧
      cts = (overlapPairs ov t2).map (fun pr => ⟨pr, ContactKind.coarse⟩) := by
  cases hbr : boundRefresh cb d idx with
  | none => simp [tree_collide, hbr] at h
  | some idx2 =>
    simp only [tree_collide, hbr] at h
    cases narrow <;>
      simp only [phaseFinish, candidatePairs, Option.some.injEq, Prod.mk.injEq] at h <;>
      obtain ⟨h1, h2⟩ := h <;> subst h1 <;> exact ⟨rfl, h2.symm⟩

theorem run_inv (cb : CollisionShape P → T → B) (ov : B → B → Bool)
    (broad : Option (BroadPhase B)) (narrow : Option (NarrowPhase P T C))
    (w : SCSWorld P T C B) (s : SpatialCollisionSystemState)
    (w2 : SCSWorld P T C B) (s2 : SpatialCollisionSystemState)
    (h : SpatialCollisionSystem.run cb ov broad narrow w s = some (w2, s2)) :
    s2 = updateDirty w.events s ∧
    ∃ cts,
      tree_collide cb ov (SpatialCollisionSystem.data w (updateDirty w.events s).dirty)
          w.tree broad narrow = some (w2.tree, cts) ∧
      w2 = { w with tree := w2.tree, event_channel := w.event_channel ++ cts } := by
  cases htc : tree_collide cb ov
      (SpatialCollisionSystem.data w (updateDirty w.events s).dirty)
      w.tree broad narrow with
  | none => simp [SpatialCollisionSystem.run, htc] at h
  | some pr =>
    obtain ⟨t2, cts⟩ := pr
    simp only [SpatialCollisionSystem.run, htc, Option.some.injEq, Prod.mk.injEq] at h
    obtain ⟨hw, hs2⟩ := h
    refine ⟨hs2.symm, cts, ?_, ?_⟩
    · rw [← hw]
    · rw [← hw]

/-! ## Claims about the pipeline -/

/-- C6: a shape or current-pose lookup for an id with no corresponding entry
aborts the evaluation (models the `unwrap` panics of `get_shape`/`get_pose`),
and the error branch is unreachable when every looked-up id has a shape and a
pose entry. -/
theorem lookup_fail_fast (cb : CollisionShape P → T → B) (ov : B → B → Bool)
    (d : SpatialCollisionData P T) (idx : SpatialIndex B)
    (broad : Option (BroadPhase B)) (narrow : Option (NarrowPhase P T C)) :
    ((∃ e, e ∈ d.get_dirty_poses ∧ effectivePose d e = none) →
        tree_collide cb ov d idx broad narrow = none)
    ∧ ((∀ e : Entity, (d.shapes e).isSome = true → (effectivePose d e).isSome = true) →
       (∀ (idx2 : SpatialIndex B) (l r : Entity), (l, r) ∈ candidatePairs ov broad idx2 →
          (d.shapes l).isSome = true ∧ (d.shapes r).isSome = true) →
        (tree_collide cb ov d idx broad narrow).isSome = true) := by
  constructor
  · rintro ⟨e, hmem, hnone⟩
    have hbr : boundRefresh cb d idx = none :=
      refreshLoop_abort cb d d.get_dirty_poses idx e hmem hnone
    simp [tree_collide, hbr]
  · intro h1 h2
    have hall : ∀ e ∈ d.get_dirty_poses,
        (d.get_shape e).isSome = true ∧ (effectivePose d e).isSome = true := by
      intro e he
      have hs := ((mem_dirty_poses d e).mp he).2.2
      exact ⟨hs, h1 e hs⟩
    obtain ⟨idx2, hrun, -⟩ := refreshLoop_lookup cb d d.get_dirty_poses idx hall
    have hbr : boundRefresh cb d idx = some idx2 := hrun
    cases broad with
    | none => cases narrow <;> simp [tree_collide, hbr, phaseFinish]
    | some bp =>
      cases narrow with
      | none => simp [tree_collide, hbr, phaseFinish]
      | some np =>
        have hnr : (narrowRefine d np (bp idx2)).isSome = true := by
          apply narrowRefine_total
          intro l r hm
          obtain ⟨hl, hr⟩ := h2 idx2 l r hm
          exact ⟨hl, h1 l hl, hr, h1 r hr⟩
        obtain ⟨cts, hcts⟩ := Option.isSome_iff_exists.mp hnr
        simp [tree_collide, hbr, phaseFinish, hcts]

/-- Witness for C6: on `dFail` (dirty shaped body 0 with no pose at all) the
evaluation aborts; on `dOkay` (every shaped body has a pose) it succeeds. -/
theorem lookup_fail_fast_witness :
    tree_collide (B := Unit) (C := Unit) cbU ovU dFail [] none none = none ∧
    (tree_collide (B := Unit) (C := Unit) cbU ovU dOkay [] none none).isSome = true := by
  constructor
  · exact (lookup_fail_fast (C := Unit) cbU ovU dFail [] none none).1 ⟨0, by decide, rfl⟩
  · exact (lookup_fail_fast (C := Unit) cbU ovU dOkay [] none none).2
      (fun _ _ => rfl) (fun _ _ _ _ => ⟨rfl, rfl⟩)

/-- C1: narrow refinement runs only when both phases are configured — with a
broad phase but no narrow phase the emitted stream is exactly the broad phase's
candidate pairs as coarse bound-level contacts, and with a narrow phase but no
broad phase the narrow phase is never invoked either: the stream is the fallback
enumeration's pairs as coarse contacts. -/
theorem gating_broad_only (cb : CollisionShape P → T → B) (ov : B → B → Bool)
    (w : SCSWorld P T C B) (s : SpatialCollisionSystemState) :
    (∀ (bp : BroadPhase B) (w2 : SCSWorld P T C B) (s2 : SpatialCollisionSystemState),
        SpatialCollisionSystem.run cb ov (some bp) none w s = some (w2, s2) →
        w2.event_channel = w.event_channel
          ++ (bp w2.tree).map (fun pr => ⟨pr, ContactKind.coarse⟩))
    ∧ (∀ (np : NarrowPhase P T C) (w2 : SCSWorld P T C B) (s2 : SpatialCollisionSystemState),
        SpatialCollisionSystem.run cb ov none (some np) w s = some (w2, s2) →
        w2.event_channel = w.event_channel
          ++ (overlapPairs ov w2.tree).map (fun pr => ⟨pr, ContactKind.coarse⟩)) := by
  constructor
  · intro bp w2 s2 h
    obtain ⟨-, cts, htc, hw⟩ := run_inv cb ov (some bp) none w s w2 s2 h
    obtain ⟨-, hcts⟩ := tree_collide_no_narrow_inv cb ov _ _ _ _ _ htc
    rw [hw]
    simp [hcts, candidatePairs]
  · intro np w2 s2 h
    obtain ⟨-, cts, htc, hw⟩ := run_inv cb ov none (some np) w s w2 s2 h
    obtain ⟨-, hcts⟩ := tree_collide_no_broad_inv cb ov _ _ _ _ _ htc
    rw [hw]
    simp [hcts]

/-- Witness for C1: the broad-phase-only evaluation of `wW` with `bpW` emits
exactly `bpW`'s candidate pair as one coarse contact. -/
theorem gating_broad_only_witness :
    SpatialCollisionSystem.run cbU ovU (some bpW) none wW sInit = some (wRes, sInit) ∧
    wRes.event_channel = wW.event_channel
      ++ (bpW wRes.tree).map (fun pr => ⟨pr, ContactKind.coarse⟩) :=
  ⟨rfl, (gating_broad_only cbU ovU wW sInit).1 bpW wRes sInit rfl⟩

/-- C7 counterexample: with neither a broad nor a narrow phase configured, the
evaluation of `wW` (two overlapping index leaves) emits one coarse contact
event, not an empty stream. -/
theorem no_phase_counterexample :
    SpatialCollisionSystem.run cbU ovU none none wW sInit = some (wOv, sInit) ∧
    wOv.event_channel ≠ [] := ⟨rfl, by decide⟩

/-- C7 (amended): with neither phase configured, the emitted stream equals the
index's native overlap enumeration as coarse bound-level contacts — empty
exactly when the refreshed index has no overlapping leaf pairs. -/
theorem no_phase_fallback_stream (cb : CollisionShape P → T → B)
    (ov : B → B → Bool) (w : SCSWorld P T C B) (s : SpatialCollisionSystemState)
    (w2 : SCSWorld P T C B) (s2 : SpatialCollisionSystemState)
    (h : SpatialCollisionSystem.run (C := C) cb ov none none w s = some (w2, s2)) :
    w2.event_channel = w.event_channel
      ++ (overlapPairs ov w2.tree).map (fun pr => ⟨pr, ContactKind.coarse⟩) := by
  obtain ⟨-, cts, htc, hw⟩ := run_inv cb ov none none w s w2 s2 h
  obtain ⟨-, hcts⟩ := tree_collide_no_broad_inv cb ov _ _ _ _ _ htc
  rw [hw]
  simp [hcts]

/-- Witness for C7's amended theorem: on `wW` the no-phase evaluation's stream is
the overlap enumeration of the index as coarse contacts. -/
theorem no_phase_fallback_stream_witness :
    wOv.event_channel = wW.event_channel
      ++ (overlapPairs ovU wOv.tree).map (fun pr => ⟨pr, ContactKind.coarse⟩) :=
  no_phase_fallback_stream cbU ovU wW sInit wOv sInit rfl

/-- C8: one evaluation of the collision system mutates only the contact-event
channel and the spatial index — current poses, pending poses, shapes, liveness
and the change channels are read-only, and the final index is exactly the
bound-refresh step's output (broad and narrow phase apply no further mutation);
the current-frame advance never touches the physical entities or the pending
stores, so it is the sole writer of current pose and velocity in this core. -/
theorem system_frame_effects (P T C B U V : Type) (cb : CollisionShape P → T → B)
    (ov : B → B → Bool) (broad : Option (BroadPhase B))
    (narrow : Option (NarrowPhase P T C)) :
    (∀ (w : SCSWorld P T C B) (s : SpatialCollisionSystemState)
        (w2 : SCSWorld P T C B) (s2 : SpatialCollisionSystemState),
        SpatialCollisionSystem.run cb ov broad narrow w s = some (w2, s2) →
        w2.poses = w.poses ∧ w2.next_poses = w.next_poses ∧ w2.shapes = w.shapes
          ∧ w2.alive = w.alive ∧ w2.events = w.events
          ∧ boundRefresh cb (SpatialCollisionSystem.data w (updateDirty w.events s).dirty)
              w.tree = some w2.tree)
    ∧ (∀ d : CurrentFrameData U V,
        (CurrentFrameUpdateSystem.run d).entities = d.entities
          ∧ (CurrentFrameUpdateSystem.run d).next_poses = d.next_poses
          ∧ (CurrentFrameUpdateSystem.run d).next_velocities = d.next_velocities) := by
  constructor
  · intro w s w2 s2 h
    obtain ⟨-, cts, htc, hw⟩ := run_inv cb ov broad narrow w s w2 s2 h
    have hbr := tree_collide_inv cb ov _ _ broad narrow _ _ htc
    rw [hw]
    exact ⟨rfl, rfl, rfl, rfl, rfl, hbr⟩
  · intro d
    exact ⟨rfl, rfl, rfl⟩

/-- Witness for C8: the concrete no-phase evaluation of `wW` leaves poses
untouched and its final index is the bound-refresh output, and the advance on
`dCF` leaves the pending stores untouched. -/
theorem system_frame_effects_witness :
    wOv.poses = wW.poses ∧
    boundRefresh cbU (SpatialCollisionSystem.data wW (updateDirty wW.events sInit).dirty)
        wW.tree = some wOv.tree ∧
    (CurrentFrameUpdateSystem.run dCF).next_poses = dCF.next_poses := by
  have h := system_frame_effects Unit Unit Unit Unit ℤ ℤ cbU ovU none none
  have h1 := h.1 wW sInit wOv sInit rfl
  exact ⟨h1.1, h1.2.2.2.2.2, (h.2 dCF).2.1⟩

end Rhusics
